import Mathlib

/-!
# The IRC bot of `bot.js`

A shallow embedding of `Server` (src/bot.js): the wire-message parser `parse`, the
dispatcher `action` / `respondToBotCommand`, the outbound `write`, and the connection
set-up `connect` / `onConnect`.  JavaScript values that the code can produce are kept
apart (`undefined`, `null`, strings), and every operation that can raise in the source
returns an `Except`.
-/

namespace IrcBot

/-! ## JavaScript values -/

/-- A JavaScript string, given by its code points. The source indexes and cuts strings by
UTF-16 code unit; a code point below U+10000 is exactly one unit, so cutting or comparing
a list element is what the source does wherever that element is such a code point
(`isOneUnit`). A code point from U+10000 on is two units, of which the source would cut
or compare only the first: the theorems whose statement depends on the element that is
cut or compared assume it is one unit. Splitting on the space and removing white space
never separate the two units of a code point, so they need no such assumption. -/
abbrev Str := List Char

/-- Whether a code point is a single UTF-16 code unit, that is, lies below U+10000. -/
def isOneUnit (c : Char) : Bool := decide (c.toNat < 0x10000)

/-- Whether the first UTF-16 code unit of a string is a whole code point (true of the
empty string, which has none). -/
def firstIsOneUnit (s : Str) : Bool :=
  match s with
  | [] => true
  | c :: _ => isOneUnit c

/-- The values the fields of a decoded message can hold. -/
inductive JSVal where
  | undefined
  | null
  | str (s : Str)
  deriving DecidableEq, Repr

/-- The faults the code can raise: all of them are `TypeError`s (a property read or a
method call on `null` / `undefined`, or a call of something that is not a function). -/
inductive JSError where
  | typeError
  deriving DecidableEq, Repr

/-- The string a value becomes under `+` with a string operand. -/
def JSVal.toStr : JSVal → Str
  | .undefined => "undefined".toList
  | .null => "null".toList
  | .str s => s

/-- `text.split(sep)` for a one-character separator: every occurrence of `sep` ends a
token, so the result always has one token more than there are separators. -/
def split (sep : Char) : Str → List Str
  | [] => [[]]
  | c :: cs =>
    if c = sep then [] :: split sep cs
    else
      match split sep cs with
      | [] => [[c]]
      | t :: ts => (c :: t) :: ts

/-- `params[i]`: an index past the end reads `undefined`. -/
def index (params : List Str) (i : Nat) : JSVal :=
  match params[i]? with
  | some s => .str s
  | none => .undefined

/-- `v.substring(start)`: a method call, which raises when `v` is not a string. It counts
code points, as `Str` does; the source counts units (see `Str`). -/
def substring (v : JSVal) (start : Nat) : Except JSError Str :=
  match v with
  | .str s => .ok (s.drop start)
  | _ => .error .typeError

/-- `msg.substr(start)` on a string, counted in code points (see `Str`). -/
def substr (msg : Str) (start : Nat) : Str := msg.drop start

/-- `msg[i]` on a string: the string of the element at `i`, or `undefined` past the end;
this is the one-unit string of the source when that element is one unit (see `Str`). -/
def charAt (msg : Str) (i : Nat) : JSVal :=
  match msg[i]? with
  | some c => .str [c]
  | none => .undefined

/-- `a == b` on the values that occur here: `null` and `undefined` equal each other and
nothing else, strings are compared unit by unit. -/
def looseEq : JSVal → JSVal → Bool
  | .str a, .str b => a == b
  | .str _, _ => false
  | _, .str _ => false
  | _, _ => true

/-! ## parse -/

/-- The object `parse` returns. -/
structure Decoded where
  command : JSVal
  message : Str
  channel : JSVal
  sender : JSVal
  deriving DecidableEq, Repr

/-- The loop `for (i = 3; i < params.length; i++) msg += params[i] + " "`. -/
def recreate (params : List Str) : Str :=
  (params.drop 3).foldl (fun msg p => msg ++ (p ++ [' '])) []

/-- `Server.prototype.parse`. -/
def parse (text : Str) : Except JSError Decoded :=
  let commands : Decoded := { command := .null, message := [], channel := .null, sender := .null }
  let params := split ' ' text
  if params.length = 2 then
    match substring (index params 1) 1 with
    | .error e => .error e
    | .ok s => .ok { commands with command := index params 0, sender := .str s }
  else
    let msg := recreate params
    .ok { commands with
      command := index params 1, channel := index params 2, message := substr msg 1 }

/-! ## The instance, its transport and the world around it -/

/-- The five methods `connect` registers as event handlers. -/
inductive Handler where
  | onConnect
  | onReceive
  | onEOF
  | onTimeout
  | onClose
  deriving DecidableEq, Repr

/-- The socket `net.createConnection` returns, as far as the code touches it: what it was
opened to, what `setEncoding` / `setTimeout` stored, the listeners added, and the log of
`write(data, encoding)` calls, oldest first. -/
structure Transport where
  port : Nat
  host : Str
  encoding : Option Str
  timeout : Option Nat
  listeners : List (Str × Handler)
  written : List (Str × Str)
  deriving DecidableEq, Repr

/-- What a property of the command table holds besides `undefined`. A function is given
by the outcome of calling it with no receiver and no argument: the string its result
becomes under `+`, or the fault it raises. -/
inductive Member where
  | fn (outcome : Except JSError Str)
  | notCallable
  deriving Repr

/-- The `commands` object handed to the constructor. `own` are its own properties, each a
zero-argument function returning a string (given by that string); `inherited` is what a
property read finds further up the prototype chain when the object has no own property
of that name. -/
structure CommandTable where
  own : List (Str × Str)
  inherited : List (Str × Member)
  deriving Repr

/-- What an object literal such as the `commands` of main.js inherits from
`Object.prototype` (ECMAScript 5.1, section 15.2.4). Called as `fn()`, with no receiver:
`Object()` returns a new object, which `+` turns into `[object Object]`; `toString`
answers `[object Undefined]`; `isPrototypeOf` answers `false`; the others convert the
missing receiver to an object first, which raises. The last five are the legacy members
the runtime adds: `__proto__` reads the prototype, an object that cannot be called, and
the four accessor helpers convert the missing receiver to an object first, as above. -/
def objectPrototype : List (Str × Member) :=
  [ ("constructor".toList, .fn (.ok "[object Object]".toList)),
    ("toString".toList, .fn (.ok "[object Undefined]".toList)),
    ("toLocaleString".toList, .fn (.error .typeError)),
    ("valueOf".toList, .fn (.error .typeError)),
    ("hasOwnProperty".toList, .fn (.error .typeError)),
    ("isPrototypeOf".toList, .fn (.ok "false".toList)),
    ("propertyIsEnumerable".toList, .fn (.error .typeError)),
    ("__proto__".toList, .notCallable),
    ("__defineGetter__".toList, .fn (.error .typeError)),
    ("__defineSetter__".toList, .fn (.error .typeError)),
    ("__lookupGetter__".toList, .fn (.error .typeError)),
    ("__lookupSetter__".toList, .fn (.error .typeError)) ]

/-- The table an object literal with the given own properties denotes. -/
def CommandTable.literal (own : List (Str × Str)) : CommandTable :=
  { own := own, inherited := objectPrototype }

/-- `this.commands[command]`: the own property if there is one, else the inherited one;
`none` stands for `undefined`. -/
def CommandTable.get (t : CommandTable) (command : Str) : Option Member :=
  match t.own.lookup command with
  | some result => some (.fn (.ok result))
  | none => t.inherited.lookup command

/-- The part of `config.irc` the constructor reads (`./config/index.js` is not part of
the sources, so it is a parameter). -/
structure IrcConfig where
  host : Option Str
  port : Option Nat
  nickname : Str
  realname : Str
  cmdPrefix : Str
  deriving DecidableEq, Repr

/-- The fields of a `Server` instance; `cmdPrefix` is the field `prefix` of the source. -/
structure Server where
  host : Str
  port : Nat
  nickname : Str
  realname : Str
  cmdPrefix : Str
  commands : CommandTable
  channel : Str
  encoding : Str
  timeout : Nat
  connection : Option Transport
  deriving Repr

/-- The instance together with what the code reaches outside it: the number of sockets
`net.createConnection` has made, the names under which a member of the command table was
called (oldest first), the lines given to `console.log`, and the two variables that
`action` and `respondToBotCommand` assign without declaring them (`commands`, `command`),
which therefore live in the global object. -/
structure World where
  server : Server
  created : Nat
  invoked : List Str
  console : List Str
  gCommands : Option Decoded
  gCommand : Option Str
  deriving Repr

/-- The result of running a method: whether it raised, and the world it left. -/
abbrev Outcome := Except JSError Unit × World

/-- Statement sequencing: a fault stops the method and keeps the world reached so far. -/
def Outcome.andThen (r : Outcome) (k : World → Outcome) : Outcome :=
  match r with
  | (.ok _, w) => k w
  | (.error e, w) => (.error e, w)

/-- `x || dflt` on an optional string: `undefined` and the empty string are falsy. -/
def orStr (x : Option Str) (dflt : Str) : Str :=
  match x with
  | some (c :: cs) => c :: cs
  | _ => dflt

/-- `x || dflt` on an optional number: `undefined` and `0` are falsy. -/
def orNat (x : Option Nat) (dflt : Nat) : Nat :=
  match x with
  | some (n + 1) => n + 1
  | _ => dflt

/-- The constructor `Server(channel, commands)`. -/
def Server.new (config : IrcConfig) (channel : Str) (commands : CommandTable) : Server :=
  { host := orStr config.host "irc.freenode.org".toList
    port := orNat config.port 6667
    nickname := config.nickname
    realname := config.realname
    cmdPrefix := config.cmdPrefix
    commands := commands
    channel := channel
    encoding := "utf8".toList
    timeout := 3600 * 1000
    connection := none }

/-- The world right after `new Server(channel, commands)`: nothing has happened yet. -/
def World.fresh (config : IrcConfig) (channel : Str) (commands : CommandTable) : World :=
  { server := Server.new config channel commands
    created := 0, invoked := [], console := [], gCommands := none, gCommand := none }

/-- The world with the instance's `connection` replaced. -/
def World.setConnection (w : World) (t : Transport) : World :=
  { w with server := { w.server with connection := some t } }

/-- The data of the writes the transport has received, oldest first (empty without one). -/
def World.writes (w : World) : List Str :=
  match w.server.connection with
  | none => []
  | some t => t.written.map Prod.fst

/-! ## The methods -/

def crlf : Str := ['\r', '\n']

/-- `Server.prototype.write`: `this.connection.write(command + "\r\n", this.encoding)`;
reading `write` off a `null` connection raises. -/
def write (command : Str) (w : World) : Outcome :=
  match w.server.connection with
  | none => (.error .typeError, w)
  | some t =>
    (.ok (), w.setConnection { t with written := t.written ++ [(command ++ crlf, w.server.encoding)] })

/-- `Server.prototype.addListener`: forwards to the connection's `addListener`. -/
def addListener (event : Str) (listener : Handler) (w : World) : Outcome :=
  match w.server.connection with
  | none => (.error .typeError, w)
  | some t => (.ok (), w.setConnection { t with listeners := t.listeners ++ [(event, listener)] })

/-- `Server.prototype.connect`. -/
def connect (w : World) : Outcome :=
  match w.server.connection with
  | none =>
    let t : Transport :=
      { port := w.server.port, host := w.server.host, encoding := none, timeout := none,
        listeners := [], written := [] }
    let w := { w.setConnection t with created := w.created + 1 }
    let w := w.setConnection { t with encoding := some w.server.encoding }
    let w := w.setConnection
      { t with encoding := some w.server.encoding, timeout := some w.server.timeout }
    (((((addListener "connect".toList .onConnect w).andThen
      (addListener "data".toList .onReceive)).andThen
      (addListener "eof".toList .onEOF)).andThen
      (addListener "timeout".toList .onTimeout)).andThen
      (addListener "close".toList .onClose))
  | some _ => (.ok (), { w with console := w.console ++ ["Already connected...".toList] })

/-- `Server.prototype.join`. -/
def join (channel : Str) (w : World) : Outcome :=
  write ("JOIN #".toList ++ channel) w

/-- `Server.prototype.identify`. -/
def identify (w : World) : Outcome :=
  (write ("NICK _".toList ++ w.server.nickname) w).andThen fun w =>
    write ("USER ".toList ++ w.server.nickname ++ " 0".toList ++ " *".toList ++ " :".toList
      ++ w.server.realname) w

/-- `Server.prototype.onConnect`. -/
def onConnect (w : World) : Outcome :=
  (identify w).andThen fun w => join w.server.channel w

/-- The characters the regular expression class `\s` matches (ECMAScript 5.1, 15.10.2.12:
white space and line terminators). -/
def isWhiteSpace (c : Char) : Bool :=
  c = '\t' || c = '\n' || c.toNat = 0x0B || c.toNat = 0x0C || c = '\r' || c = ' '
    || c.toNat = 0xA0 || c.toNat = 0x1680 || c.toNat = 0x180E
    || (0x2000 ≤ c.toNat && c.toNat ≤ 0x200A)
    || c.toNat = 0x2028 || c.toNat = 0x2029 || c.toNat = 0x202F || c.toNat = 0x205F
    || c.toNat = 0x3000 || c.toNat = 0xFEFF

/-- `v.replace(/\s+/g, '')`: a method call, which raises when `v` is not a string;
removing every maximal run of white space removes every white-space unit. -/
def replaceWhiteSpace (v : JSVal) : Except JSError Str :=
  match v with
  | .str s => .ok (s.filter fun c => !isWhiteSpace c)
  | _ => .error .typeError

/-- `Server.prototype.respondToBotCommand`. The argument of `this.write` is evaluated
first, so the member is called before the connection is looked at. -/
def respondToBotCommand (message : Str) (w : World) : Outcome :=
  let message := substr message 1
  match replaceWhiteSpace (index (split ' ' message) 0) with
  | .error e => (.error e, w)
  | .ok command =>
    let w := { w with gCommand := some command }
    match w.server.commands.get command with
    | none => (.ok (), w)
    | some .notCallable => (.error .typeError, w)
    | some (.fn outcome) =>
      let w := { w with invoked := w.invoked ++ [command] }
      match outcome with
      | .error e => (.error e, w)
      | .ok result => write ("PRIVMSG #".toList ++ w.server.channel ++ " ".toList ++ result) w

/-- `Server.prototype.action`; the `switch` compares with `===`. -/
def action (text : Str) (w : World) : Outcome :=
  match parse text with
  | .error e => (.error e, w)
  | .ok commands =>
    let w := { w with gCommands := some commands }
    if commands.command = .str "PRIVMSG".toList then
      let msg := commands.message
      if looseEq (charAt msg 0) (.str w.server.cmdPrefix) then respondToBotCommand msg w
      else (.ok (), w)
    else if commands.command = .str "PING".toList then
      write ("PONG ".toList ++ commands.sender.toStr) w
    else (.ok (), w)

/-- `Server.prototype.onReceive`. -/
def onReceive (msg : Str) (w : World) : Outcome :=
  action msg w

/-! ## Input lines -/

/-- The chat line `:S PRIVMSG X :T` with channel token `X`. -/
def chatLine (S X T : Str) : Str :=
  ':' :: S ++ (" PRIVMSG ".toList ++ (X ++ (" :".toList ++ T)))

/-- The keep-alive probe `PING :h`. -/
def pingLine (h : Str) : Str := "PING :".toList ++ h

/-! ## Worlds used as concrete inputs -/

/-- A configuration with the command-prefix `!`. -/
def demoConfig : IrcConfig :=
  { host := none, port := none, nickname := "bot".toList, realname := "Bot".toList,
    cmdPrefix := "!".toList }

/-- The table `{time: () => "12:00"}`, written as an object literal. -/
def demoTable : CommandTable := CommandTable.literal [("time".toList, "12:00".toList)]

/-- A new instance for channel `demo`, never connected. -/
def demoFresh : World := World.fresh demoConfig "demo".toList demoTable

/-- The socket `connect` sets up for `demoFresh`. -/
def demoTransport : Transport :=
  { port := 6667, host := "irc.freenode.org".toList, encoding := some "utf8".toList,
    timeout := some 3600000,
    listeners := [("connect".toList, .onConnect), ("data".toList, .onReceive),
      ("eof".toList, .onEOF), ("timeout".toList, .onTimeout), ("close".toList, .onClose)],
    written := [] }

/-- The instance `demoFresh` after `connect`. -/
def demoConnected : World := { demoFresh.setConnection demoTransport with created := 1 }

/-- An instance whose configured channel name holds a space, after `connect`. -/
def spacedChannel : World :=
  (connect (World.fresh demoConfig "a b".toList demoTable)).2

/-- An instance whose command-prefix is the space character and whose table is
`{"": () => "hi"}`, after `connect`. -/
def spacePrefixed : World :=
  (connect (World.fresh { demoConfig with cmdPrefix := " ".toList } "demo".toList
    (CommandTable.literal [([], "hi".toList)]))).2

/-! ## Lemmas on `split` and the rebuilt message -/

theorem split_ne_nil (sep : Char) (s : Str) : split sep s ≠ [] := by
  cases s with
  | nil => simp [split]
  | cons c cs =>
    unfold split
    split_ifs
    · simp
    · cases split sep cs <;> simp

theorem split_no_sep (sep : Char) (a : Str) (ha : sep ∉ a) : split sep a = [a] := by
  induction a with
  | nil => rfl
  | cons c cs ih =>
    have hc : c ≠ sep := fun h => ha (by simp [h])
    have hcs : sep ∉ cs := fun h => ha (by simp [h])
    simp [split, hc, ih hcs]

theorem split_append_sep (sep : Char) (a rest : Str) (ha : sep ∉ a) :
    split sep (a ++ sep :: rest) = a :: split sep rest := by
  induction a with
  | nil => simp [split]
  | cons c cs ih =>
    have hc : c ≠ sep := fun h => ha (by simp [h])
    have hcs : sep ∉ cs := fun h => ha (by simp [h])
    simp [split, hc, ih hcs]

theorem foldl_split_space (text acc : Str) :
    (split ' ' text).foldl (fun msg p => msg ++ (p ++ [' '])) acc = acc ++ (text ++ [' ']) := by
  induction text generalizing acc with
  | nil => simp [split]
  | cons c cs ih =>
    by_cases hc : c = ' '
    · subst hc
      simp [split, ih]
    · have h := ih (acc ++ [c])
      cases hs : split ' ' cs with
      | nil => exact absurd hs (split_ne_nil _ _)
      | cons t ts =>
        rw [hs] at h
        simp only [split, hc, if_false, hs]
        simpa using h

/-- What `parse` makes of a chat line whose first three tokens hold no space: the
rebuilt message is the trailing text followed by the space the loop appends last. -/
theorem parse_chatLine (S X T : Str) (hS : ' ' ∉ S) (hX : ' ' ∉ X) :
    parse (chatLine S X T) =
      .ok { command := .str "PRIVMSG".toList, message := T ++ [' '], channel := .str X,
            sender := .null } := by
  have h1 : split ' ' (chatLine S X T)
      = (':' :: S) :: "PRIVMSG".toList :: X :: split ' ' (':' :: T) := by
    have e1 : chatLine S X T
        = (':' :: S) ++ ' ' :: ("PRIVMSG".toList ++ ' ' :: (X ++ ' ' :: (':' :: T))) := by
      simp [chatLine]
    rw [e1, split_append_sep _ _ _ (by simpa using hS),
      split_append_sep _ _ _ (by decide), split_append_sep _ _ _ hX]
  have hlen : (split ' ' (chatLine S X T)).length ≠ 2 := by
    rw [h1]
    cases hs : split ' ' (':' :: T) with
    | nil => exact absurd hs (split_ne_nil _ _)
    | cons t ts => simp
  have hmsg : recreate (split ' ' (chatLine S X T)) = ':' :: (T ++ [' ']) := by
    rw [h1]
    simp [recreate, foldl_split_space]
  simp only [parse, hlen, if_false, hmsg]
  simp [h1, index, substr]

theorem parse_two (a b : Str) (ha : ' ' ∉ a) (hb : ' ' ∉ b) :
    parse (a ++ ' ' :: b) =
      .ok { command := .str a, message := [], channel := .null, sender := .str (b.drop 1) } := by
  have h1 : split ' ' (a ++ ' ' :: b) = [a, b] := by
    rw [split_append_sep _ _ _ ha, split_no_sep _ _ hb]
  simp [parse, h1, index, substring]

theorem parse_pingLine (h : Str) (hh : ' ' ∉ h) :
    parse (pingLine h) =
      .ok { command := .str "PING".toList, message := [], channel := .null, sender := .str h } := by
  have e : pingLine h = "PING".toList ++ ' ' :: (':' :: h) := by simp [pingLine]
  rw [e, parse_two _ _ (by decide) (by simpa using hh)]
  simp

theorem isWhiteSpace_space : isWhiteSpace ' ' = true := by decide

theorem no_space_of_no_whiteSpace (k : Str) (hk : ∀ c ∈ k, isWhiteSpace c = false) :
    ' ' ∉ k := by
  intro h
  have := hk _ h
  rw [isWhiteSpace_space] at this
  exact Bool.noConfusion this

theorem filter_no_whiteSpace (k : Str) (hk : ∀ c ∈ k, isWhiteSpace c = false) :
    k.filter (fun c => !isWhiteSpace c) = k := by
  rw [List.filter_eq_self]
  intro c hc
  simp [hk c hc]

/-- The key `respondToBotCommand` looks up for the message `p :: k ++ " "`, where `k`
holds no white space, is `k`. -/
theorem respond_key (p : Char) (k : Str) (hk : ∀ c ∈ k, isWhiteSpace c = false) :
    replaceWhiteSpace (index (split ' ' (substr (p :: (k ++ [' '])) 1)) 0) = .ok k := by
  have h1 : split ' ' (substr (p :: (k ++ [' '])) 1) = [k, []] := by
    have e : substr (p :: (k ++ [' '])) 1 = k ++ ' ' :: [] := by simp [substr]
    rw [e, split_append_sep _ _ _ (no_space_of_no_whiteSpace k hk)]
    rfl
  rw [h1]
  simp [index, replaceWhiteSpace, filter_no_whiteSpace k hk]

/-- How `action` treats a chat line whose first three tokens hold no space: the decoded
line is stored, and the rebuilt message (trailing text plus one space) is dispatched when
its first unit equals the prefix. -/
theorem action_chatLine (S X T : Str) (w : World) (hS : ' ' ∉ S) (hX : ' ' ∉ X) :
    action (chatLine S X T) w =
      if looseEq (charAt (T ++ [' ']) 0) (.str w.server.cmdPrefix) = true then
        respondToBotCommand (T ++ [' '])
          { w with gCommands := some { command := .str "PRIVMSG".toList,
                                       message := T ++ [' '], channel := .str X,
                                       sender := .null } }
      else
        (.ok (),
          { w with gCommands := some { command := .str "PRIVMSG".toList,
                                       message := T ++ [' '], channel := .str X,
                                       sender := .null } }) := by
  simp only [action, parse_chatLine S X T hS hX]
  simp

/-- A chat line whose trailing text does not start with the one-character prefix `p` is
ignored, provided the text is not empty or `p` is not the space: nothing is written or
called, and only the undeclared variable `commands` changes. -/
theorem action_chat_ignored (S X T : Str) (p : Char) (w : World) (hS : ' ' ∉ S)
    (hX : ' ' ∉ X) (hp : w.server.cmdPrefix = [p]) (hT : T.head? ≠ some p)
    (hne : T ≠ [] ∨ p ≠ ' ') :
    action (chatLine S X T) w =
      (.ok (),
        { w with gCommands := some { command := .str "PRIVMSG".toList,
                                     message := T ++ [' '], channel := .str X,
                                     sender := .null } }) := by
  rw [action_chatLine S X T w hS hX, hp]
  have : looseEq (charAt (T ++ [' ']) 0) (.str [p]) = false := by
    cases T with
    | nil =>
      rcases hne with h | h
      · exact absurd rfl h
      · simp [charAt, looseEq]
        exact fun e => h e.symm
    | cons c cs =>
      have hc : c ≠ p := fun e => hT (by simp [e])
      simp [charAt, looseEq, hc]
  simp [this]

/-! ## Claims -/

/-- C1 (the code departs from it): `parse` of `:S PRIVMSG #C :rest of text` yields command
`PRIVMSG` and channel `#C`, but the message it rebuilds is `rest of text` followed by a
space, not `rest of text`: the loop appends a space after every token, the last one
included, and only the leading `:` is cut off. -/
theorem parse_privmsg_trailing_space :
    parse ":S PRIVMSG #C :rest of text".toList =
        .ok { command := .str "PRIVMSG".toList, message := "rest of text ".toList,
              channel := .str "#C".toList, sender := .null }
      ∧ "rest of text ".toList ≠ "rest of text".toList := by
  constructor
  · rfl
  · decide

/-- C2: for tokens `a` and `b` without a space, `parse (a ++ " " ++ b)` yields
`command = a` and `sender = b` minus its first character (channel stays `null`, message
empty); in particular, for a server name `s` without a space, `parse ("PING :" ++ s)`
yields command `PING` and sender `s`. The character cut off `b` is its first UTF-16 unit,
taken here to be a whole code point (`firstIsOneUnit b`); in the probe it is the `:`. -/
theorem parse_two_tokens (a b s : Str) (ha : ' ' ∉ a) (hb : ' ' ∉ b) (hs : ' ' ∉ s)
    (_hb1 : firstIsOneUnit b = true) :
    parse (a ++ " ".toList ++ b) =
        .ok { command := .str a, message := [], channel := .null, sender := .str (b.drop 1) }
      ∧ parse ("PING :".toList ++ s) =
        .ok { command := .str "PING".toList, message := [], channel := .null,
              sender := .str s } := by
  refine ⟨?_, parse_pingLine s hs⟩
  have e : a ++ " ".toList ++ b = a ++ ' ' :: b := by simp
  rw [e]
  exact parse_two a b ha hb

/-- Witness of C2: `parse "PING :server.example"` gives command `PING` and sender
`server.example`, read either as the tokens `PING` and `:server.example` or as a probe
from `server.example`. -/
theorem parse_two_tokens_witness :
    parse ("PING".toList ++ " ".toList ++ ":server.example".toList) =
        .ok { command := .str "PING".toList, message := [], channel := .null,
              sender := .str "server.example".toList }
      ∧ parse "PING :server.example".toList =
        .ok { command := .str "PING".toList, message := [], channel := .null,
              sender := .str "server.example".toList } :=
  parse_two_tokens "PING".toList ":server.example".toList "server.example".toList
    (by decide) (by decide) (by decide) (by decide)

/-- C3: on an instance with a transport, `action ("PING :" ++ h)` for a host name `h`
without a space does not fail and leaves exactly the old world with one more write,
`"PONG " ++ h ++ CRLF` in the instance's encoding: no member of the command table is
called and no field of the instance changes (the undeclared variable `commands` holds the
decoded line afterwards). -/
theorem action_ping_pong (h : Str) (w : World) (t : Transport) (hh : ' ' ∉ h)
    (ht : w.server.connection = some t) :
    action ("PING :".toList ++ h) w =
        (.ok (),
          { w with
            server := { w.server with connection := some { t with
              written := t.written ++ [("PONG ".toList ++ h ++ crlf, w.server.encoding)] } }
            gCommands := some { command := .str "PING".toList, message := [],
                                channel := .null, sender := .str h } })
      ∧ (action ("PING :".toList ++ h) w).2.writes = w.writes ++ ["PONG ".toList ++ h ++ crlf]
      ∧ (action ("PING :".toList ++ h) w).2.invoked = w.invoked := by
  have hp := parse_pingLine h hh
  simp only [pingLine] at hp
  have key : action ("PING :".toList ++ h) w =
      (.ok (),
        { w with
          server := { w.server with connection := some { t with
            written := t.written ++ [("PONG ".toList ++ h ++ crlf, w.server.encoding)] } }
          gCommands := some { command := .str "PING".toList, message := [],
                              channel := .null, sender := .str h } }) := by
    simp only [action, hp]
    simp [write, ht, World.setConnection, JSVal.toStr]
  refine ⟨key, ?_, ?_⟩
  · rw [key]; simp [World.writes, ht]
  · rw [key]

/-- Witness of C3: `PING :host123` on the connected demo instance produces the single
write `PONG host123` + CRLF. -/
theorem action_ping_pong_witness :
    (action "PING :host123".toList demoConnected).2.writes = ["PONG host123\r\n".toList] := by
  simpa [World.writes, demoConnected, World.setConnection, demoTransport, crlf] using
    (action_ping_pong "host123".toList demoConnected demoTransport (by decide) rfl).2.1

/-- C4, as stated, fails: with the configured channel `a b` (a name holding a space), the
prefix `!` and the table `{time ↦ "12:00"}`, the line `:u PRIVMSG #a b :!time` produces no
write at all, where the claim promises the single write `PRIVMSG #a b 12:00` + CRLF. -/
theorem dispatch_known_spaced_channel :
    spacedChannel.server.channel = "a b".toList
      ∧ spacedChannel.server.commands.own.lookup "time".toList = some "12:00".toList
      ∧ (action (":u PRIVMSG #".toList ++ "a b".toList ++ " :".toList ++ ['!']
          ++ "time".toList) spacedChannel).2.writes = []
      ∧ (action (":u PRIVMSG #".toList ++ "a b".toList ++ " :".toList ++ ['!']
          ++ "time".toList) spacedChannel).2.writes ≠ ["PRIVMSG #a b 12:00\r\n".toList] := by
  refine ⟨rfl, rfl, rfl, ?_⟩
  have h : (action (":u PRIVMSG #".toList ++ "a b".toList ++ " :".toList ++ ['!']
      ++ "time".toList) spacedChannel).2.writes = [] := rfl
  rw [h]
  exact List.noConfusion

/-- C4 (amended): for every one-character prefix `p` (one UTF-16 unit, as `msg[0]` is),
every configured channel `c` that holds no space, every command table and every own key
`k` of it without white space (storing a function that returns `r`), on an instance with
a transport `action (":u PRIVMSG #" ++ c ++ " :" ++ p ++ k)` does not fail and appends
exactly one write, `"PRIVMSG #" ++ c ++ " " ++ r ++ CRLF`; the function under `k` is the
one call made. -/
theorem dispatch_known_command (p : Char) (c k r : Str) (w : World) (t : Transport)
    (_hp1 : isOneUnit p = true)
    (hc : ' ' ∉ c) (hk : ∀ x ∈ k, isWhiteSpace x = false)
    (hp : w.server.cmdPrefix = [p]) (hch : w.server.channel = c)
    (hget : w.server.commands.own.lookup k = some r)
    (ht : w.server.connection = some t) :
    action (":u PRIVMSG #".toList ++ c ++ " :".toList ++ [p] ++ k) w =
        (.ok (),
          { w with
            server := { w.server with connection := some { t with
              written := t.written
                ++ [("PRIVMSG #".toList ++ c ++ " ".toList ++ r ++ crlf, w.server.encoding)] } }
            invoked := w.invoked ++ [k]
            gCommands := some { command := .str "PRIVMSG".toList, message := p :: k ++ [' '],
                                channel := .str ('#' :: c), sender := .null }
            gCommand := some k })
      ∧ (action (":u PRIVMSG #".toList ++ c ++ " :".toList ++ [p] ++ k) w).2.writes =
          w.writes ++ ["PRIVMSG #".toList ++ c ++ " ".toList ++ r ++ crlf] := by
  have e : ":u PRIVMSG #".toList ++ c ++ " :".toList ++ [p] ++ k
      = chatLine "u".toList ('#' :: c) (p :: k) := by
    simp [chatLine]
  have key : action (":u PRIVMSG #".toList ++ c ++ " :".toList ++ [p] ++ k) w =
      (.ok (),
        { w with
          server := { w.server with connection := some { t with
            written := t.written
              ++ [("PRIVMSG #".toList ++ c ++ " ".toList ++ r ++ crlf, w.server.encoding)] } }
          invoked := w.invoked ++ [k]
          gCommands := some { command := .str "PRIVMSG".toList, message := p :: k ++ [' '],
                              channel := .str ('#' :: c), sender := .null }
          gCommand := some k }) := by
    rw [e, action_chatLine _ _ _ w (by decide) (by simpa using hc), hp]
    have hl : looseEq (charAt (p :: k ++ [' ']) 0) (.str [p]) = true := by
      simp [charAt, looseEq]
    rw [if_pos hl]
    have hkey := respond_key p k hk
    simp only [respondToBotCommand, List.cons_append, hkey]
    simp [CommandTable.get, hget, write, ht, hch, World.setConnection]
  refine ⟨key, ?_⟩
  rw [key]
  simp [World.writes, ht]

/-- Witness of C4: prefix `!`, table `{time ↦ "12:00"}`, channel `demo`: the line
`:u PRIVMSG #demo :!time` gives the single write `PRIVMSG #demo 12:00` + CRLF. -/
theorem dispatch_known_command_witness :
    (action ":u PRIVMSG #demo :!time".toList demoConnected).2.writes =
      ["PRIVMSG #demo 12:00\r\n".toList] :=
  (dispatch_known_command '!' "demo".toList "time".toList "12:00".toList demoConnected
    demoTransport (by decide) (by decide) (by decide) rfl rfl rfl rfl).2

/-- C5 (the code departs from it): `constructor` is not a key of the table
`{time: () => "12:00"}`, yet `:u PRIVMSG #demo :!constructor` calls a function and
writes `PRIVMSG #demo [object Object]` + CRLF, because the property read also finds what
the table inherits; `:u PRIVMSG #demo :!hasOwnProperty` calls one that raises. The line
`:u PRIVMSG #demo :!bogus` of the claim does produce no write. -/
theorem dispatch_unknown_inherited :
    demoTable.own.lookup "constructor".toList = none
      ∧ (action ":u PRIVMSG #demo :!constructor".toList demoConnected).2.writes =
          ["PRIVMSG #demo [object Object]\r\n".toList]
      ∧ (action ":u PRIVMSG #demo :!constructor".toList demoConnected).2.invoked =
          ["constructor".toList]
      ∧ (action ":u PRIVMSG #demo :!hasOwnProperty".toList demoConnected).1 =
          .error .typeError
      ∧ (action ":u PRIVMSG #demo :!bogus".toList demoConnected).2.writes = [] :=
  ⟨rfl, rfl, rfl, rfl, rfl⟩

/-- C6 (the code departs from it): with the space as command-prefix and a table holding a
function under the empty name, the chat line `:S PRIVMSG #C :`, whose trailing text is
empty and so does not start with the prefix, is dispatched and answered with one write:
the space the loop of `parse` appends is taken for the prefix. -/
theorem chat_empty_text_dispatched :
    spacePrefixed.server.cmdPrefix = [' ']
      ∧ ([] : Str).head? ≠ some ' '
      ∧ (action (chatLine "S".toList "#C".toList []) spacePrefixed).2.writes =
          ["PRIVMSG #demo hi\r\n".toList]
      ∧ (action (chatLine "S".toList "#C".toList []) spacePrefixed).2.invoked = [[]]
      ∧ chatLine "S".toList "#C".toList [] = ":S PRIVMSG #C :".toList := by
  refine ⟨rfl, ?_, rfl, rfl, rfl⟩
  simp

/-- C7: for every nickname, realname and channel, the on-connect handler run on an
instance with a transport does not fail and appends exactly three writes, in this order:
`"NICK _" ++ nickname`, `"USER " ++ nickname ++ " 0 * :" ++ realname`, `"JOIN #" ++ channel`,
each followed by CRLF; on an empty write log these three are all that is written, and
nothing else in the world changes. -/
theorem onConnect_registers_then_joins (w : World) (t : Transport)
    (ht : w.server.connection = some t) :
    onConnect w =
        (.ok (), w.setConnection { t with
          written := t.written ++
            [ ("NICK _".toList ++ w.server.nickname ++ crlf, w.server.encoding),
              ("USER ".toList ++ w.server.nickname ++ " 0 * :".toList ++ w.server.realname
                ++ crlf, w.server.encoding),
              ("JOIN #".toList ++ w.server.channel ++ crlf, w.server.encoding) ] })
      ∧ (t.written = [] →
          (onConnect w).2.writes =
            [ "NICK _".toList ++ w.server.nickname ++ crlf,
              "USER ".toList ++ w.server.nickname ++ " 0 * :".toList ++ w.server.realname
                ++ crlf,
              "JOIN #".toList ++ w.server.channel ++ crlf ]) := by
  have key : onConnect w =
      (.ok (), w.setConnection { t with
        written := t.written ++
          [ ("NICK _".toList ++ w.server.nickname ++ crlf, w.server.encoding),
            ("USER ".toList ++ w.server.nickname ++ " 0 * :".toList ++ w.server.realname
              ++ crlf, w.server.encoding),
            ("JOIN #".toList ++ w.server.channel ++ crlf, w.server.encoding) ] }) := by
    simp [onConnect, identify, join, write, Outcome.andThen, ht, World.setConnection]
  refine ⟨key, fun hw => ?_⟩
  rw [key]
  simp [World.writes, World.setConnection, hw]

/-- Witness of C7: the connected demo instance (nickname `bot`, realname `Bot`, channel
`demo`) writes `NICK _bot`, `USER bot 0 * :Bot`, `JOIN #demo`, in this order. -/
theorem onConnect_registers_then_joins_witness :
    (onConnect demoConnected).2.writes =
      [ "NICK _bot\r\n".toList, "USER bot 0 * :Bot\r\n".toList, "JOIN #demo\r\n".toList ] :=
  (onConnect_registers_then_joins demoConnected demoTransport rfl).2 rfl

/-- C8: on an instance without a transport, the first `connect` does not fail, makes one
socket to the configured port and host, stores the encoding and the timeout on it and
registers the five handlers once, in source order; a second `connect` does not fail
either, makes no socket and leaves the instance (its transport included) as it is: its
only trace is the line `Already connected...` on the console. -/
theorem connect_twice (w : World) (hw : w.server.connection = none) :
    connect w =
        (.ok (),
          { w.setConnection
              { port := w.server.port, host := w.server.host,
                encoding := some w.server.encoding, timeout := some w.server.timeout,
                listeners := [("connect".toList, .onConnect), ("data".toList, .onReceive),
                  ("eof".toList, .onEOF), ("timeout".toList, .onTimeout),
                  ("close".toList, .onClose)],
                written := [] }
            with created := w.created + 1 })
      ∧ connect (connect w).2 =
        (.ok (), { (connect w).2 with
          console := (connect w).2.console ++ ["Already connected...".toList] })
      ∧ (connect (connect w).2).2.created = w.created + 1
      ∧ (connect (connect w).2).2.server.connection = (connect w).2.server.connection := by
  have key : connect w =
      (.ok (),
        { w.setConnection
            { port := w.server.port, host := w.server.host,
              encoding := some w.server.encoding, timeout := some w.server.timeout,
              listeners := [("connect".toList, .onConnect), ("data".toList, .onReceive),
                ("eof".toList, .onEOF), ("timeout".toList, .onTimeout),
                ("close".toList, .onClose)],
              written := [] }
          with created := w.created + 1 }) := by
    simp [connect, hw, addListener, Outcome.andThen, World.setConnection]
  have second : connect (connect w).2 =
      (.ok (), { (connect w).2 with
        console := (connect w).2.console ++ ["Already connected...".toList] }) := by
    rw [key]
    simp [connect, World.setConnection]
  refine ⟨key, second, ?_, ?_⟩
  · rw [second, key]
  · rw [second]

/-- Witness of C8: `connect` on the new demo instance yields the connected demo instance
with one socket made; a second `connect` still counts one socket. -/
theorem connect_twice_witness :
    connect demoFresh = (.ok (), demoConnected)
      ∧ (connect (connect demoFresh).2).2.created = 1 :=
  ⟨(connect_twice demoFresh rfl).1, (connect_twice demoFresh rfl).2.2.1⟩

/-- C9: `write command` raises exactly when the instance has no transport, and then the
world is left as it was; with a transport it does not fail and appends exactly
`command ++ CRLF` in the instance's encoding. Hence `action ("PING :" ++ h)` on an
instance without a transport raises, and nothing is written. -/
theorem write_fails_iff_no_transport (command : Str) (w : World) :
    ((∃ e, (write command w).1 = .error e) ↔ w.server.connection = none)
      ∧ (w.server.connection = none → write command w = (.error .typeError, w))
      ∧ (∀ t, w.server.connection = some t →
          write command w =
            (.ok (), w.setConnection { t with
              written := t.written ++ [(command ++ crlf, w.server.encoding)] }))
      ∧ (∀ h, ' ' ∉ h → w.server.connection = none →
          (action ("PING :".toList ++ h) w).1 = .error .typeError
            ∧ (action ("PING :".toList ++ h) w).2.server.connection = none
            ∧ (action ("PING :".toList ++ h) w).2.writes = []) := by
  refine ⟨?_, ?_, ?_, ?_⟩
  · cases hc : w.server.connection with
    | none => exact ⟨fun _ => rfl, fun _ => ⟨.typeError, by simp [write, hc]⟩⟩
    | some t => simp [write, hc]
  · intro hc
    simp [write, hc]
  · intro t hc
    simp [write, hc]
  · intro h hh hc
    have hp := parse_pingLine h hh
    simp only [pingLine] at hp
    have key : action ("PING :".toList ++ h) w =
        (.error .typeError,
          { w with gCommands := some { command := .str "PING".toList, message := [],
                                       channel := .null, sender := .str h } }) := by
      simp only [action, hp]
      simp [write, hc]
    rw [key]
    simp [World.writes, hc]

/-- Witness of C9: on the never-connected demo instance `write "x"` raises and changes
nothing, and `PING :h` raises; on the connected one `write "x"` sends `x` + CRLF. -/
theorem write_fails_iff_no_transport_witness :
    write "x".toList demoFresh = (.error .typeError, demoFresh)
      ∧ (action "PING :h".toList demoFresh).1 = .error .typeError
      ∧ (write "x".toList demoConnected).2.writes = ["x\r\n".toList] :=
  ⟨(write_fails_iff_no_transport "x".toList demoFresh).2.1 rfl,
   ((write_fails_iff_no_transport "x".toList demoFresh).2.2.2 "h".toList (by decide) rfl).1,
   by
    rw [(write_fails_iff_no_transport "x".toList demoConnected).2.2.1 demoTransport rfl]
    rfl⟩

/-- C10: `parse` is total: for every input string it returns a decoded message and never
raises. With exactly two tokens it reads `params[0]` and `params[1]`, both present;
otherwise it reads `params[1]` and `params[2]` without calling a method on them, so a
missing token cannot raise. The result is a function of the input line alone. -/
theorem parse_total (text : Str) :
    ∃ d : Decoded, parse text = .ok d
      ∧ (((split ' ' text).length = 2 ∧ d.channel = .null ∧ d.message = []
            ∧ d.command = index (split ' ' text) 0)
          ∨ ((split ' ' text).length ≠ 2 ∧ d.sender = .null
            ∧ d.command = index (split ' ' text) 1
            ∧ d.channel = index (split ' ' text) 2
            ∧ d.message = substr (recreate (split ' ' text)) 1)) := by
  by_cases hlen : (split ' ' text).length = 2
  · obtain ⟨a, b, hab⟩ := List.length_eq_two.mp hlen
    refine ⟨{ command := .str a, message := [], channel := .null, sender := .str (b.drop 1) },
      ?_, Or.inl ⟨hlen, rfl, rfl, ?_⟩⟩
    · simp [parse, hab, index, substring]
    · simp [hab, index]
  · refine ⟨{ command := index (split ' ' text) 1, message := substr (recreate (split ' ' text)) 1,
              channel := index (split ' ' text) 2, sender := .null },
      ?_, Or.inr ⟨hlen, rfl, rfl, rfl, rfl⟩⟩
    simp [parse, hlen]

/-! ## Further lemmas on `parse` and `action` -/

theorem parse_of_length_ne_two (text : Str) (h : (split ' ' text).length ≠ 2) :
    parse text =
      .ok { command := index (split ' ' text) 1,
            message := substr (recreate (split ' ' text)) 1,
            channel := index (split ' ' text) 2, sender := .null } := by
  simp [parse, h]

theorem parse_of_two (text a b : Str) (h : split ' ' text = [a, b]) :
    parse text =
      .ok { command := .str a, message := [], channel := .null, sender := .str (b.drop 1) } := by
  simp [parse, h, index, substring]

theorem parse_no_space (text : Str) (h : ' ' ∉ text) :
    parse text =
      .ok { command := .undefined, message := [], channel := .undefined, sender := .null } := by
  have hs := split_no_sep ' ' text h
  rw [parse_of_length_ne_two text (by simp [hs]), hs]
  simp [index, recreate, substr]

/-- What `parse` makes of a line of at least four tokens, `a b c R` with `a`, `b`, `c`
free of spaces and `R` the rest: the message is `R` followed by a space, minus its
first unit. -/
theorem parse_four (a b c R : Str) (ha : ' ' ∉ a) (hb : ' ' ∉ b) (hc : ' ' ∉ c) :
    parse (a ++ ' ' :: (b ++ ' ' :: (c ++ ' ' :: R))) =
      .ok { command := .str b, message := (R ++ [' ']).drop 1, channel := .str c,
            sender := .null } := by
  have h1 : split ' ' (a ++ ' ' :: (b ++ ' ' :: (c ++ ' ' :: R))) = a :: b :: c :: split ' ' R := by
    rw [split_append_sep _ _ _ ha, split_append_sep _ _ _ hb, split_append_sep _ _ _ hc]
  have hlen : (split ' ' (a ++ ' ' :: (b ++ ' ' :: (c ++ ' ' :: R)))).length ≠ 2 := by
    rw [h1]
    cases hs : split ' ' R with
    | nil => exact absurd hs (split_ne_nil _ _)
    | cons t ts => simp
  rw [parse_of_length_ne_two _ hlen, h1]
  simp [recreate, foldl_split_space, index, substr]

/-- The branch `action` takes once the line is decoded. -/
theorem action_of_parse (text : Str) (d : Decoded) (w : World) (h : parse text = .ok d) :
    action text w =
      if d.command = .str "PRIVMSG".toList then
        if looseEq (charAt d.message 0) (.str w.server.cmdPrefix) = true then
          respondToBotCommand d.message { w with gCommands := some d }
        else (.ok (), { w with gCommands := some d })
      else if d.command = .str "PING".toList then
        write ("PONG ".toList ++ d.sender.toStr) { w with gCommands := some d }
      else (.ok (), { w with gCommands := some d }) := by
  simp only [action, h]

/-! ## Claims on the remaining commands and on the decoded fields -/

/-- C11: for every line whose decoded command is neither `PRIVMSG` nor `PING`, `action`
does not fail, writes nothing, calls nothing and leaves the instance as it is, with or
without a transport (the undeclared variable `commands` holds the decoded line
afterwards); every line `word` without a space, the empty line and the bare word `PING`
included, is such a line: its command is `undefined`. -/
theorem action_other_command (text word : Str) (d : Decoded) (w : World)
    (hd : parse text = .ok d) (h1 : d.command ≠ .str "PRIVMSG".toList)
    (h2 : d.command ≠ .str "PING".toList) (hword : ' ' ∉ word) :
    action text w = (.ok (), { w with gCommands := some d })
      ∧ (action text w).2.writes = w.writes
      ∧ (action text w).2.invoked = w.invoked
      ∧ (action text w).2.server.connection = w.server.connection
      ∧ action word w =
          (.ok (), { w with gCommands := some { command := .undefined, message := [],
                                                channel := .undefined, sender := .null } }) := by
  have key : action text w = (.ok (), { w with gCommands := some d }) := by
    rw [action_of_parse text d w hd, if_neg h1, if_neg h2]
  have kw : action word w =
      (.ok (), { w with gCommands := some { command := .undefined, message := [],
                                            channel := .undefined, sender := .null } }) := by
    rw [action_of_parse word _ w (parse_no_space word hword)]
    simp
  refine ⟨key, ?_, ?_, ?_, kw⟩
  all_goals (rw [key]; try rfl)

/-- Witness of C11: the numeric reply `:srv 001 bot :Welcome` and the bare word `PING`
are both ignored by the never-connected demo instance, without a fault. -/
theorem action_other_command_witness :
    action ":srv 001 bot :Welcome".toList demoFresh =
        (.ok (), { demoFresh with
          gCommands := some
            { command := .str "001".toList, message := "Welcome ".toList,
              channel := .str "bot".toList, sender := .null } })
      ∧ action "PING".toList demoFresh =
        (.ok (), { demoFresh with
          gCommands := some
            { command := .undefined, message := [], channel := .undefined,
              sender := .null } }) :=
  ⟨(action_other_command ":srv 001 bot :Welcome".toList "PING".toList
      { command := .str "001".toList, message := "Welcome ".toList,
        channel := .str "bot".toList, sender := .null }
      demoFresh rfl (by decide) (by decide) (by decide)).1,
   (action_other_command ":srv 001 bot :Welcome".toList "PING".toList
      { command := .str "001".toList, message := "Welcome ".toList,
        channel := .str "bot".toList, sender := .null }
      demoFresh rfl (by decide) (by decide) (by decide)).2.2.2.2⟩

/-- C13: `parse` cuts exactly one unit off the front of the rebuilt trailing text,
whatever that unit is: for every line of at least four tokens, `a b c` followed by the
rest `x :: R` (first unit `x`, a whole code point, the sentinel `:` or not), the decoded
message is `R` followed by the space the loop appends; so `x` is gone and the message
starts with the second unit of the run. -/
theorem parse_strips_one_unit (a b c R : Str) (x : Char) (ha : ' ' ∉ a) (hb : ' ' ∉ b)
    (hc : ' ' ∉ c) (_hx : isOneUnit x = true) :
    parse (a ++ " ".toList ++ b ++ " ".toList ++ c ++ " ".toList ++ x :: R) =
        .ok { command := .str b, message := R ++ [' '], channel := .str c, sender := .null }
      ∧ recreate (split ' ' (a ++ " ".toList ++ b ++ " ".toList ++ c ++ " ".toList ++ x :: R))
          = x :: (R ++ [' '])
      ∧ (R ++ [' ']).head? = (x :: (R ++ [' ']))[1]? := by
  have e : a ++ " ".toList ++ b ++ " ".toList ++ c ++ " ".toList ++ x :: R
      = a ++ ' ' :: (b ++ ' ' :: (c ++ ' ' :: (x :: R))) := by simp
  refine ⟨?_, ?_, ?_⟩
  · rw [e, parse_four a b c (x :: R) ha hb hc]
    simp
  · rw [e, split_append_sep _ _ _ ha, split_append_sep _ _ _ hb, split_append_sep _ _ _ hc]
    simp [recreate, foldl_split_space]
  · cases R <;> simp

/-- Witness of C13: `:u PRIVMSG #c hello world` decodes to the message `ello world `,
the `h` being cut though it is no sentinel; likewise `:u PRIVMSG #c x!time` loses its `x`
and is answered as the command `!time`. -/
theorem parse_strips_one_unit_witness :
    parse ":u PRIVMSG #c hello world".toList =
        .ok { command := .str "PRIVMSG".toList, message := "ello world ".toList,
              channel := .str "#c".toList, sender := .null }
      ∧ (action ":u PRIVMSG #c x!time".toList demoConnected).2.writes =
          ["PRIVMSG #demo 12:00\r\n".toList] :=
  ⟨(parse_strips_one_unit ":u".toList "PRIVMSG".toList "#c".toList "ello world".toList 'h'
    (by decide) (by decide) (by decide) (by decide)).1, rfl⟩

/-- C15, as stated, fails: for the empty line and for the single word `PING` the
decoded command and channel are `undefined`, which is not the empty string. -/
theorem parse_short_line_undefined :
    parse [] = .ok { command := .undefined, message := [], channel := .undefined,
                     sender := .null }
      ∧ parse "PING".toList = .ok { command := .undefined, message := [],
                                    channel := .undefined, sender := .null }
      ∧ parse [] ≠ .ok { command := .str [], message := [], channel := .str [],
                         sender := .null }
      ∧ JSVal.undefined ≠ JSVal.str [] := by
  refine ⟨rfl, rfl, ?_, ?_⟩
  · intro h
    have h' : parse [] = .ok { command := .undefined, message := [], channel := .undefined,
                               sender := .null } := rfl
    rw [h'] at h
    injection h with h
    injection h with h
    exact JSVal.noConfusion h
  · exact JSVal.noConfusion

/-- C15 (amended): for every line with fewer than two tokens (no space in it, the empty
line included), `parse` takes the multi-token branch without failing; the tokens it
cannot find are absent: command and channel are `undefined`, the sender is `null`, and
the message is the empty string. -/
theorem parse_short_line (text : Str) (h : ' ' ∉ text) :
    (split ' ' text).length = 1
      ∧ parse text = .ok { command := .undefined, message := [], channel := .undefined,
                           sender := .null } := by
  refine ⟨?_, parse_no_space text h⟩
  rw [split_no_sep ' ' text h]
  rfl

/-- Witness of C15 (amended): the single word `PING`. -/
theorem parse_short_line_witness :
    (split ' ' "PING".toList).length = 1
      ∧ parse "PING".toList = .ok { command := .undefined, message := [],
                                    channel := .undefined, sender := .null } :=
  parse_short_line "PING".toList (by decide)

/-- C18: `parse` never extracts the sender of a chat message. For every line, it
returns; when the line does not split into exactly two tokens the decoded sender is
`null`, whatever the first token is; when it splits into exactly two, the decoded
channel is `null` and the decoded message is the empty string. -/
theorem parse_sender_only_for_two_tokens (text : Str) :
    ((split ' ' text).length ≠ 2 → ∃ d, parse text = .ok d ∧ d.sender = .null)
      ∧ ((split ' ' text).length = 2 →
          ∃ d, parse text = .ok d ∧ d.channel = .null ∧ d.message = []) := by
  constructor
  · intro h
    exact ⟨_, parse_of_length_ne_two text h, rfl⟩
  · intro h
    obtain ⟨a, b, hab⟩ := List.length_eq_two.mp h
    exact ⟨_, parse_of_two text a b hab, rfl, rfl⟩

/-! ## Lemmas on the dispatcher -/

/-- The dispatcher neither reads nor writes the undeclared variable `commands`. -/
theorem respond_frame (m : Str) (w : World) (g : Option Decoded) :
    respondToBotCommand m { w with gCommands := g } =
      ((respondToBotCommand m w).1, { (respondToBotCommand m w).2 with gCommands := g }) := by
  simp only [respondToBotCommand]
  cases replaceWhiteSpace (index (split ' ' (substr m 1)) 0) with
  | error e => rfl
  | ok k =>
    simp only []
    cases w.server.commands.get k with
    | none => rfl
    | some mem =>
      cases mem with
      | notCallable => rfl
      | fn o =>
        cases o with
        | error e => rfl
        | ok r =>
          simp only [write]
          cases w.server.connection <;> rfl

theorem first_token_exists (m : Str) : ∃ tok, index (split ' ' m) 0 = .str tok := by
  cases hs : split ' ' m with
  | nil => exact absurd hs (split_ne_nil _ _)
  | cons a as => exact ⟨a, by simp [index]⟩

/-- The four ways `respondToBotCommand` can end on an instance with a transport, by what
the table holds under the key `k` it looks up. -/
theorem respond_shape (m : Str) (w : World) (t : Transport)
    (ht : w.server.connection = some t) :
    ∃ k,
      (w.server.commands.get k = none
          ∧ respondToBotCommand m w = (.ok (), { w with gCommand := some k }))
      ∨ (w.server.commands.get k = some .notCallable
          ∧ respondToBotCommand m w = (.error .typeError, { w with gCommand := some k }))
      ∨ (∃ e, w.server.commands.get k = some (.fn (.error e))
          ∧ respondToBotCommand m w =
              (.error e, { w with gCommand := some k, invoked := w.invoked ++ [k] }))
      ∨ (∃ r, w.server.commands.get k = some (.fn (.ok r))
          ∧ respondToBotCommand m w =
              (.ok (),
                { w with
                  server := { w.server with connection := some { t with
                    written := t.written
                      ++ [("PRIVMSG #".toList ++ w.server.channel ++ " ".toList ++ r ++ crlf,
                            w.server.encoding)] } }
                  invoked := w.invoked ++ [k]
                  gCommand := some k })) := by
  obtain ⟨tok, htok⟩ := first_token_exists (substr m 1)
  refine ⟨tok.filter (fun c => !isWhiteSpace c), ?_⟩
  simp only [respondToBotCommand, htok, replaceWhiteSpace]
  cases hg : w.server.commands.get (tok.filter (fun c => !isWhiteSpace c)) with
  | none => exact Or.inl ⟨rfl, rfl⟩
  | some mem =>
    cases mem with
    | notCallable => exact Or.inr (Or.inl ⟨rfl, rfl⟩)
    | fn o =>
      cases o with
      | error e => exact Or.inr (Or.inr (Or.inl ⟨e, rfl, rfl⟩))
      | ok r =>
        refine Or.inr (Or.inr (Or.inr ⟨r, rfl, ?_⟩))
        simp [write, ht, World.setConnection]

/-- Without a transport the dispatcher leaves the instance as it is. -/
theorem respond_no_transport (m : Str) (w : World) (hn : w.server.connection = none) :
    (respondToBotCommand m w).2.server = w.server := by
  simp only [respondToBotCommand]
  cases replaceWhiteSpace (index (split ' ' (substr m 1)) 0) with
  | error e => rfl
  | ok k =>
    simp only []
    cases w.server.commands.get k with
    | none => rfl
    | some mem =>
      cases mem with
      | notCallable => rfl
      | fn o =>
        cases o with
        | error e => rfl
        | ok r => simp [write, hn]

theorem parse_ok (text : Str) : ∃ d, parse text = .ok d := by
  by_cases h : (split ' ' text).length = 2
  · obtain ⟨a, b, hab⟩ := List.length_eq_two.mp h
    exact ⟨_, parse_of_two text a b hab⟩
  · exact ⟨_, parse_of_length_ne_two text h⟩

/-- A chat line whose trailing text is the prefix `p` followed by `body` is answered with
the result `r` of the own function under `k`, when `k` is the key read off `body`. -/
theorem action_chat_known (S X body k r : Str) (p : Char) (w : World) (t : Transport)
    (hS : ' ' ∉ S) (hX : ' ' ∉ X) (hp : w.server.cmdPrefix = [p])
    (hkey : replaceWhiteSpace (index (split ' ' (substr (p :: (body ++ [' '])) 1)) 0) = .ok k)
    (hget : w.server.commands.own.lookup k = some r)
    (ht : w.server.connection = some t) :
    action (chatLine S X (p :: body)) w =
      (.ok (),
        { w with
          server := { w.server with connection := some { t with
            written := t.written
              ++ [("PRIVMSG #".toList ++ w.server.channel ++ " ".toList ++ r ++ crlf,
                    w.server.encoding)] } }
          invoked := w.invoked ++ [k]
          gCommands := some { command := .str "PRIVMSG".toList, message := p :: body ++ [' '],
                              channel := .str X, sender := .null }
          gCommand := some k }) := by
  rw [action_chatLine S X (p :: body) w hS hX, hp]
  have hl : looseEq (charAt (p :: body ++ [' ']) 0) (.str [p]) = true := by
    simp [charAt, looseEq]
  rw [if_pos hl]
  simp only [respondToBotCommand, List.cons_append, hkey]
  simp [CommandTable.get, hget, write, ht, World.setConnection]

/-- The key read off `k ++ " " ++ a`: what stands before the first space. -/
theorem respond_key_args (p : Char) (k a : Str) (hk : ∀ c ∈ k, isWhiteSpace c = false) :
    replaceWhiteSpace (index (split ' ' (substr (p :: ((k ++ ' ' :: a) ++ [' '])) 1)) 0)
      = .ok k := by
  have e : substr (p :: ((k ++ ' ' :: a) ++ [' '])) 1 = k ++ ' ' :: (a ++ [' ']) := by
    simp [substr]
  rw [e, split_append_sep _ _ _ (no_space_of_no_whiteSpace k hk)]
  simp [index, replaceWhiteSpace, filter_no_whiteSpace k hk]

/-- The key read off `k ++ CRLF`: the terminator is white space and is removed. -/
theorem respond_key_crlf (p : Char) (k : Str) (hk : ∀ c ∈ k, isWhiteSpace c = false) :
    replaceWhiteSpace (index (split ' ' (substr (p :: ((k ++ crlf) ++ [' '])) 1)) 0)
      = .ok k := by
  have e : substr (p :: ((k ++ crlf) ++ [' '])) 1 = (k ++ crlf) ++ ' ' :: [] := by
    simp [substr]
  have hns : ' ' ∉ k ++ crlf := by
    intro h
    rcases List.mem_append.mp h with h | h
    · exact no_space_of_no_whiteSpace k hk h
    · revert h; decide
  rw [e, split_append_sep _ _ _ hns]
  have hcr : crlf.filter (fun c => !isWhiteSpace c) = [] := by decide
  simp [index, replaceWhiteSpace, filter_no_whiteSpace k hk, hcr]

/-! ## Claims on the dispatcher -/

/-- C12, as stated, fails: with a tab between the command and its argument the key is not
the first whitespace-delimited token. On the demo instance `:u PRIVMSG #c :!time<TAB>x`
looks up `timex` and writes nothing, while `:u PRIVMSG #c :!time` is answered. -/
theorem dispatch_tab_argument :
    isWhiteSpace '\t' = true
      ∧ (action (":u PRIVMSG #c :".toList ++ ['!'] ++ "time".toList ++ ['\t'] ++ "x".toList)
          demoConnected).2.gCommand = some "timex".toList
      ∧ (action (":u PRIVMSG #c :".toList ++ ['!'] ++ "time".toList ++ ['\t'] ++ "x".toList)
          demoConnected).2.writes = []
      ∧ (action (":u PRIVMSG #c :".toList ++ ['!'] ++ "time".toList) demoConnected).2.writes =
          ["PRIVMSG #demo 12:00\r\n".toList] :=
  ⟨by decide, rfl, rfl, rfl⟩

/-- C12 (amended): the command name is what stands between the prefix and the first
space: for every own key `k` of the table without white space (its function returning
`r`) and every argument text `a`, on an instance with a transport and the one-character
prefix `p` (one UTF-16 unit, as `msg[0]` is),
`action (":u PRIVMSG #" ++ c ++ " :" ++ p ++ k ++ " " ++ a)` (`c` free of spaces) does
not fail, looks up exactly `k`, calls it once and appends the same single write
`"PRIVMSG #" ++ channel ++ " " ++ r ++ CRLF` as the line without arguments. -/
theorem dispatch_space_argument (p : Char) (c k r a : Str) (w : World) (t : Transport)
    (_hp1 : isOneUnit p = true)
    (hc : ' ' ∉ c) (hk : ∀ x ∈ k, isWhiteSpace x = false)
    (hp : w.server.cmdPrefix = [p])
    (hget : w.server.commands.own.lookup k = some r)
    (ht : w.server.connection = some t) :
    (action (chatLine "u".toList ('#' :: c) (p :: (k ++ ' ' :: a))) w).1 = .ok ()
      ∧ (action (chatLine "u".toList ('#' :: c) (p :: (k ++ ' ' :: a))) w).2.gCommand = some k
      ∧ (action (chatLine "u".toList ('#' :: c) (p :: (k ++ ' ' :: a))) w).2.invoked
          = w.invoked ++ [k]
      ∧ (action (chatLine "u".toList ('#' :: c) (p :: (k ++ ' ' :: a))) w).2.writes
          = w.writes ++ ["PRIVMSG #".toList ++ w.server.channel ++ " ".toList ++ r ++ crlf]
      ∧ (action (chatLine "u".toList ('#' :: c) (p :: (k ++ ' ' :: a))) w).2.writes
          = (action (chatLine "u".toList ('#' :: c) (p :: k)) w).2.writes := by
  have hX : ' ' ∉ '#' :: c := by simpa using hc
  have h1 := action_chat_known "u".toList ('#' :: c) (k ++ ' ' :: a) k r p w t (by decide) hX hp
    (respond_key_args p k a hk) hget ht
  have h2 := action_chat_known "u".toList ('#' :: c) k k r p w t (by decide) hX hp
    (respond_key p k hk) hget ht
  rw [h1, h2]
  simp [World.writes, ht]

/-- Witness of C12 (amended): `:u PRIVMSG #c :!time now please` on the connected demo
instance looks up `time` and writes `PRIVMSG #demo 12:00` + CRLF. -/
theorem dispatch_space_argument_witness :
    (action ":u PRIVMSG #c :!time now please".toList demoConnected).2.gCommand
        = some "time".toList
      ∧ (action ":u PRIVMSG #c :!time now please".toList demoConnected).2.writes
        = ["PRIVMSG #demo 12:00\r\n".toList] :=
  ⟨(dispatch_space_argument '!' "c".toList "time".toList "12:00".toList "now please".toList
      demoConnected demoTransport (by decide) (by decide) (by decide) rfl rfl rfl).2.1,
   (dispatch_space_argument '!' "c".toList "time".toList "12:00".toList "now please".toList
      demoConnected demoTransport (by decide) (by decide) (by decide) rfl rfl rfl).2.2.2.1⟩

/-- C14 (the code departs from it): a keep-alive probe that still carries its terminator,
`PING :host123` + CRLF, is answered with `PONG host123` + CRLF + CRLF: the sender is
echoed with the CR LF it arrived with and `write` appends another pair, so the one write
holds two line terminators. -/
theorem pong_echoes_terminator :
    (action "PING :host123\r\n".toList demoConnected).2.writes
        = ["PONG host123\r\n\r\n".toList]
      ∧ "PONG host123\r\n\r\n".toList ≠ "PONG host123\r\n".toList := by
  constructor
  · rfl
  · decide

/-- C16: a command line that still carries its terminator is dispatched like the bare
line: for every own key `k` of the table without white space (its function returning
`r`), on an instance with a transport and the one-character prefix `p` (one UTF-16 unit,
as `msg[0]` is), `action (":u PRIVMSG #" ++ c ++ " :" ++ p ++ k ++ CRLF)` (`c` free of
spaces) does not fail, looks up `k` (CR and LF are removed as white space) and appends
the same single write `"PRIVMSG #" ++ channel ++ " " ++ r ++ CRLF` as the line without
the terminator. -/
theorem dispatch_with_terminator (p : Char) (c k r : Str) (w : World) (t : Transport)
    (_hp1 : isOneUnit p = true)
    (hc : ' ' ∉ c) (hk : ∀ x ∈ k, isWhiteSpace x = false)
    (hp : w.server.cmdPrefix = [p])
    (hget : w.server.commands.own.lookup k = some r)
    (ht : w.server.connection = some t) :
    (action (chatLine "u".toList ('#' :: c) (p :: (k ++ crlf))) w).1 = .ok ()
      ∧ (action (chatLine "u".toList ('#' :: c) (p :: (k ++ crlf))) w).2.gCommand = some k
      ∧ (action (chatLine "u".toList ('#' :: c) (p :: (k ++ crlf))) w).2.writes
          = w.writes ++ ["PRIVMSG #".toList ++ w.server.channel ++ " ".toList ++ r ++ crlf]
      ∧ (action (chatLine "u".toList ('#' :: c) (p :: (k ++ crlf))) w).2.writes
          = (action (chatLine "u".toList ('#' :: c) (p :: k)) w).2.writes
      ∧ (action (chatLine "u".toList ('#' :: c) (p :: (k ++ crlf))) w).2.invoked
          = (action (chatLine "u".toList ('#' :: c) (p :: k)) w).2.invoked := by
  have hX : ' ' ∉ '#' :: c := by simpa using hc
  have h1 := action_chat_known "u".toList ('#' :: c) (k ++ crlf) k r p w t (by decide) hX hp
    (respond_key_crlf p k hk) hget ht
  have h2 := action_chat_known "u".toList ('#' :: c) k k r p w t (by decide) hX hp
    (respond_key p k hk) hget ht
  rw [h1, h2]
  simp [World.writes, ht]

/-- Witness of C16: `:u PRIVMSG #c :!time` + CRLF on the connected demo instance looks up
`time` and writes `PRIVMSG #demo 12:00` + CRLF, as `:u PRIVMSG #c :!time` does. -/
theorem dispatch_with_terminator_witness :
    (action ":u PRIVMSG #c :!time\r\n".toList demoConnected).2.writes
        = ["PRIVMSG #demo 12:00\r\n".toList]
      ∧ (action ":u PRIVMSG #c :!time\r\n".toList demoConnected).2.writes
        = (action ":u PRIVMSG #c :!time".toList demoConnected).2.writes :=
  ⟨(dispatch_with_terminator '!' "c".toList "time".toList "12:00".toList
      demoConnected demoTransport (by decide) (by decide) (by decide) rfl rfl rfl).2.2.1,
   (dispatch_with_terminator '!' "c".toList "time".toList "12:00".toList
      demoConnected demoTransport (by decide) (by decide) (by decide) rfl rfl rfl).2.2.2.1⟩

/-- Whatever the dispatcher writes is one line addressed to the configured channel. -/
theorem respond_writes (m : Str) (w : World) :
    (respondToBotCommand m w).2.writes = w.writes
      ∨ ∃ r, (respondToBotCommand m w).2.writes =
          w.writes ++ ["PRIVMSG #".toList ++ w.server.channel ++ " ".toList ++ r ++ crlf] := by
  cases hc : w.server.connection with
  | none =>
    left
    simp [World.writes, respond_no_transport m w hc, hc]
  | some t =>
    obtain ⟨k, h | h | ⟨e, h⟩ | ⟨r, h⟩⟩ := respond_shape m w t hc
    · left; rw [h.2]; rfl
    · left; rw [h.2]; rfl
    · left; rw [h.2]; rfl
    · right
      refine ⟨r, ?_⟩
      rw [h.2]
      simp [World.writes, hc]

/-- The ways a call of `action` can end on an instance with a transport. -/
theorem action_shape (text : Str) (w : World) (t : Transport)
    (ht : w.server.connection = some t) :
    ∃ d, parse text = .ok d ∧
      (action text w = (.ok (), { w with gCommands := some d })
        ∨ (∃ s, action text w =
            (.ok (),
              { w with
                server := { w.server with connection := some { t with
                  written := t.written ++ [("PONG ".toList ++ s ++ crlf, w.server.encoding)] } }
                gCommands := some d }))
        ∨ (∃ k, w.server.commands.get k = none
            ∧ action text w = (.ok (), { w with gCommands := some d, gCommand := some k }))
        ∨ (∃ k, w.server.commands.get k = some .notCallable
            ∧ action text w =
                (.error .typeError, { w with gCommands := some d, gCommand := some k }))
        ∨ (∃ k e, w.server.commands.get k = some (.fn (.error e))
            ∧ action text w =
                (.error e,
                  { w with gCommands := some d, gCommand := some k,
                           invoked := w.invoked ++ [k] }))
        ∨ (∃ k r, w.server.commands.get k = some (.fn (.ok r))
            ∧ action text w =
                (.ok (),
                  { w with
                    server := { w.server with connection := some { t with
                      written := t.written
                        ++ [("PRIVMSG #".toList ++ w.server.channel ++ " ".toList ++ r ++ crlf,
                              w.server.encoding)] } }
                    invoked := w.invoked ++ [k]
                    gCommands := some d
                    gCommand := some k }))) := by
  obtain ⟨d, hd⟩ := parse_ok text
  refine ⟨d, hd, ?_⟩
  rw [action_of_parse text d w hd]
  by_cases h1 : d.command = .str "PRIVMSG".toList
  · rw [if_pos h1]
    by_cases h2 : looseEq (charAt d.message 0) (.str w.server.cmdPrefix) = true
    · rw [if_pos h2]
      obtain ⟨k, h | h | ⟨e, h⟩ | ⟨r, h⟩⟩ :=
        respond_shape d.message { w with gCommands := some d } t ht
      · exact Or.inr (Or.inr (Or.inl ⟨k, h.1, h.2⟩))
      · exact Or.inr (Or.inr (Or.inr (Or.inl ⟨k, h.1, h.2⟩)))
      · exact Or.inr (Or.inr (Or.inr (Or.inr (Or.inl ⟨k, e, h.1, h.2⟩))))
      · exact Or.inr (Or.inr (Or.inr (Or.inr (Or.inr ⟨k, r, h.1, h.2⟩))))
    · rw [if_neg h2]
      exact Or.inl rfl
  · rw [if_neg h1]
    by_cases h3 : d.command = .str "PING".toList
    · rw [if_pos h3]
      refine Or.inr (Or.inl ⟨d.sender.toStr, ?_⟩)
      simp [write, ht, World.setConnection]
    · rw [if_neg h3]
      exact Or.inl rfl

/-! ## Claims on the response as a whole -/

/-- C17: the response does not depend on who spoke or where: for two chat lines
`:S1 PRIVMSG X1 :T` and `:S2 PRIVMSG X2 :T` with the same trailing text (`S1`, `S2`,
`X1`, `X2` free of spaces), `action` run from the same world ends the same way, leaves
the same instance, hence the same writes, and calls the same functions; and what it
writes, if anything, is one line addressed to the configured channel, `"PRIVMSG #" ++
channel ++ " " ++ r ++ CRLF`, not to `X1`, `X2` or the sender. -/
theorem response_independent_of_origin (S1 S2 X1 X2 T : Str) (w : World)
    (h1 : ' ' ∉ S1) (h2 : ' ' ∉ S2) (h3 : ' ' ∉ X1) (h4 : ' ' ∉ X2) :
    (action (chatLine S1 X1 T) w).1 = (action (chatLine S2 X2 T) w).1
      ∧ (action (chatLine S1 X1 T) w).2.server = (action (chatLine S2 X2 T) w).2.server
      ∧ (action (chatLine S1 X1 T) w).2.writes = (action (chatLine S2 X2 T) w).2.writes
      ∧ (action (chatLine S1 X1 T) w).2.invoked = (action (chatLine S2 X2 T) w).2.invoked
      ∧ ((action (chatLine S1 X1 T) w).2.writes = w.writes
          ∨ ∃ r, (action (chatLine S1 X1 T) w).2.writes =
              w.writes ++ ["PRIVMSG #".toList ++ w.server.channel ++ " ".toList ++ r ++ crlf]) := by
  rw [action_chatLine S1 X1 T w h1 h3, action_chatLine S2 X2 T w h2 h4]
  by_cases hl : looseEq (charAt (T ++ [' ']) 0) (.str w.server.cmdPrefix) = true
  · have f1 := respond_frame (T ++ [' ']) w
      (some { command := .str "PRIVMSG".toList, message := T ++ [' '], channel := .str X1,
              sender := .null })
    have f2 := respond_frame (T ++ [' ']) w
      (some { command := .str "PRIVMSG".toList, message := T ++ [' '], channel := .str X2,
              sender := .null })
    rw [if_pos hl, if_pos hl, f1, f2]
    refine ⟨rfl, rfl, rfl, rfl, ?_⟩
    exact respond_writes (T ++ [' ']) w
  · rw [if_neg hl, if_neg hl]
    exact ⟨rfl, rfl, rfl, rfl, Or.inl rfl⟩

/-- Witness of C17: `!time` said by `alice` in `#here` and by `bob` in `#there` gets the
same answer from the connected demo instance, addressed to `#demo`. -/
theorem response_independent_of_origin_witness :
    (action ":alice PRIVMSG #here :!time".toList demoConnected).2.writes
        = (action ":bob PRIVMSG #there :!time".toList demoConnected).2.writes
      ∧ (action ":alice PRIVMSG #here :!time".toList demoConnected).2.writes
        = ["PRIVMSG #demo 12:00\r\n".toList] :=
  ⟨(response_independent_of_origin "alice".toList "bob".toList "#here".toList "#there".toList
      "!time".toList demoConnected (by decide) (by decide) (by decide) (by decide)).2.2.1,
   rfl⟩

/-- C19: on an instance with a transport a single call of `action`, whatever the inbound
string, appends at most one write and calls at most one member of the command table; when
it calls one, under the key `k`, the table holds a function there, and either that
function returns and its result `r` is the one write, `"PRIVMSG #" ++ channel ++ " " ++ r
++ CRLF`, or it raises, `action` raises with it and nothing is written. A function of the
table itself (an own key) returns, so its call always comes with that write. -/
theorem action_at_most_one_write (text : Str) (w : World) (t : Transport)
    (ht : w.server.connection = some t) :
    ((action text w).2.writes = w.writes
        ∨ ∃ x, (action text w).2.writes = w.writes ++ [x])
      ∧ ((action text w).2.invoked = w.invoked
        ∨ ∃ k, (action text w).2.invoked = w.invoked ++ [k])
      ∧ (∀ k, (action text w).2.invoked = w.invoked ++ [k] →
          (∃ r, w.server.commands.get k = some (.fn (.ok r))
              ∧ (action text w).1 = .ok ()
              ∧ (action text w).2.writes =
                  w.writes ++ ["PRIVMSG #".toList ++ w.server.channel ++ " ".toList ++ r ++ crlf])
            ∨ (∃ e, w.server.commands.get k = some (.fn (.error e))
              ∧ (action text w).1 = .error e
              ∧ (action text w).2.writes = w.writes))
      ∧ (∀ k r, (action text w).2.invoked = w.invoked ++ [k] →
          w.server.commands.own.lookup k = some r →
          (action text w).1 = .ok ()
            ∧ (action text w).2.writes =
                w.writes ++ ["PRIVMSG #".toList ++ w.server.channel ++ " ".toList ++ r ++ crlf]) := by
  have third : ∀ k, (action text w).2.invoked = w.invoked ++ [k] →
      (∃ r, w.server.commands.get k = some (.fn (.ok r))
          ∧ (action text w).1 = .ok ()
          ∧ (action text w).2.writes =
              w.writes ++ ["PRIVMSG #".toList ++ w.server.channel ++ " ".toList ++ r ++ crlf])
        ∨ (∃ e, w.server.commands.get k = some (.fn (.error e))
          ∧ (action text w).1 = .error e
          ∧ (action text w).2.writes = w.writes) := by
    intro k hk
    obtain ⟨d, -, h | ⟨s, h⟩ | ⟨k', -, h⟩ | ⟨k', -, h⟩ | ⟨k', e, hg, h⟩ | ⟨k', r, hg, h⟩⟩ :=
      action_shape text w t ht
    · rw [h] at hk; simp at hk
    · rw [h] at hk; simp at hk
    · rw [h] at hk; simp at hk
    · rw [h] at hk; simp at hk
    · rw [h] at hk
      have hkk : k' = k := by simpa using hk
      subst hkk
      right
      refine ⟨e, hg, ?_, ?_⟩ <;> rw [h]
      simp [World.writes, ht]
    · rw [h] at hk
      have hkk : k' = k := by simpa using hk
      subst hkk
      left
      refine ⟨r, hg, ?_, ?_⟩ <;> rw [h]
      simp [World.writes, ht]
  refine ⟨?_, ?_, third, ?_⟩
  · obtain ⟨d, -, h | ⟨s, h⟩ | ⟨k', -, h⟩ | ⟨k', -, h⟩ | ⟨k', e, -, h⟩ | ⟨k', r, -, h⟩⟩ :=
      action_shape text w t ht
    · left; rw [h]; rfl
    · right
      exact ⟨"PONG ".toList ++ s ++ crlf, by rw [h]; simp [World.writes, ht]⟩
    · left; rw [h]; rfl
    · left; rw [h]; rfl
    · left; rw [h]; rfl
    · right
      exact ⟨"PRIVMSG #".toList ++ w.server.channel ++ " ".toList ++ r ++ crlf,
        by rw [h]; simp [World.writes, ht]⟩
  · obtain ⟨d, -, h | ⟨s, h⟩ | ⟨k', -, h⟩ | ⟨k', -, h⟩ | ⟨k', e, -, h⟩ | ⟨k', r, -, h⟩⟩ :=
      action_shape text w t ht
    · left; rw [h]
    · left; rw [h]
    · left; rw [h]
    · left; rw [h]
    · right; exact ⟨k', by rw [h]⟩
    · right; exact ⟨k', by rw [h]⟩
  · intro k r hk hown
    have hget : w.server.commands.get k = some (.fn (.ok r)) := by
      simp [CommandTable.get, hown]
    rcases third k hk with ⟨r', hg, hok, hw⟩ | ⟨e, hg, -, -⟩
    · rw [hget] at hg
      injection hg with hg
      injection hg with hg
      injection hg with hg
      subst hg
      exact ⟨hok, hw⟩
    · rw [hget] at hg
      injection hg with hg
      injection hg with hg
      exact Except.noConfusion hg

/-- Witness of C19: on the connected demo instance `!time` calls `time` once and writes
its result once; `!hasOwnProperty` calls the inherited function, which raises, and
nothing is written. -/
theorem action_at_most_one_write_witness :
    ((action ":u PRIVMSG #demo :!time".toList demoConnected).1 = .ok ()
        ∧ (action ":u PRIVMSG #demo :!time".toList demoConnected).2.writes =
            demoConnected.writes ++
              ["PRIVMSG #".toList ++ demoConnected.server.channel ++ " ".toList
                ++ "12:00".toList ++ crlf])
      ∧ (action ":u PRIVMSG #demo :!hasOwnProperty".toList demoConnected).2.writes = [] :=
  ⟨(action_at_most_one_write ":u PRIVMSG #demo :!time".toList demoConnected demoTransport
      rfl).2.2.2 "time".toList "12:00".toList rfl rfl,
   rfl⟩

end IrcBot
